import Mathlib

/-!
Verification of the just-weather-client core against its specification.

The repository ships the orchestration layer (`weather_client.c`), the
alternate async path (`weather_client.c` async variant and
`weather_client_smw.c`) and the CLI as C sources, together with header
files for the Cache Engine (`client_cache.h`), the HTTP Protocol Client
(`http_client.h`), the TCP transport (`client_tcp.h`) and the linked
list (`client_list.h`).  The implementations behind those four headers
are not part of the source tree, so the Cache Engine and the Protocol
Client response processing are modelled here from the specification
(sections 3, 4.2, 4.3) and the header documentation; the definitions
taken from C sources present in the tree follow those sources directly.
-/

/- ===================================================================
   Cache Engine model.
   =================================================================== -/

/-- Modelled from the spec: a Cache Entry (spec section 3): cache key,
serialized value, creation/update timestamp in seconds.  The derived
content-hash filename is represented by the key itself, since the spec
requires the filename to be a deterministic, collision-resistant
function of the key (distinct keys essentially never collide). -/
structure CacheEntry where
  key : String
  value : String
  timestamp : Nat
deriving Repr, DecidableEq

/-- Modelled from the spec: the content of one on-disk cache file.  A
file holds the value and its timestamp in a reloadable format; a file
may also be unreadable (e.g. truncated by a crash mid-write), which a
get must treat as a read error. -/
inductive DiskFile where
  | good (value : String) (timestamp : Nat)
  | corrupt
deriving Repr, DecidableEq

/-- Modelled from the spec: Cache Engine state (spec section 3,
`client_cache.h`).  `entries` is the bounded recency-ordered in-memory
index, kept in insertion/update order with the least recently
inserted/updated entry first; `disk` is the backing directory, an
association from key-derived filenames (keys) to files. -/
structure ClientCache where
  entries : List CacheEntry
  maxEntries : Nat
  defaultTtl : Nat
  disk : List (String × DiskFile)
deriving Repr, DecidableEq

/-- Modelled from the spec: `client_cache_create(max_entries,
default_ttl)` allocates the empty in-memory index; the backing
directory starts as whatever is on disk, here empty for a fresh
directory. -/
def client_cache_create (max_entries : Nat) (default_ttl : Nat) : ClientCache :=
  { entries := [], maxEntries := max_entries, defaultTtl := default_ttl, disk := [] }

/-- Remove every association for `k` from the disk directory. -/
def diskErase (d : List (String × DiskFile)) (k : String) : List (String × DiskFile) :=
  d.filter (fun p => !(p.1 == k))

/-- Write file `f` under key `k`, replacing any previous file. -/
def diskWrite (d : List (String × DiskFile)) (k : String) (f : DiskFile) :
    List (String × DiskFile) :=
  (k, f) :: diskErase d k

/-- Read the file stored under key `k`, if any. -/
def diskRead (d : List (String × DiskFile)) (k : String) : Option DiskFile :=
  (d.find? (fun p => p.1 == k)).map (fun p => p.2)

/-- Remove the in-memory entry for `k` (there is at most one live entry
per key). -/
def memErase (l : List CacheEntry) (k : String) : List CacheEntry :=
  l.filter (fun e => !(e.key == k))

/-- Look up the in-memory entry for `k`. -/
def memFind (l : List CacheEntry) (k : String) : Option CacheEntry :=
  l.find? (fun e => e.key == k)

/-- Modelled from the spec: evicting the single oldest entry (least
recently inserted/updated, the front of the recency order).  The spec's
Cache Entry lifecycle removes the entry on eviction, and its capacity
test requires an evicted key to subsequently miss, so eviction also
removes the entry's on-disk file. -/
def evictOldest (c : ClientCache) : ClientCache :=
  match c.entries.head? with
  | none => c
  | some e => { c with entries := c.entries.tail, disk := diskErase c.disk e.key }

/-- Modelled from the spec: `client_cache_set(cache, key, value)` at
time `now` (spec section 4.3).  If an entry with this exact key exists,
its value and timestamp are overwritten and its recency position is
refreshed; otherwise, if the index is at capacity, the single oldest
entry is evicted before the new one is inserted.  The value and
timestamp are then persisted to the entry's file. -/
def client_cache_set (c : ClientCache) (k v : String) (now : Nat) : ClientCache :=
  if (memFind c.entries k).isSome then
    { c with
      entries := memErase c.entries k ++ [⟨k, v, now⟩],
      disk := diskWrite c.disk k (DiskFile.good v now) }
  else
    let c' := if c.maxEntries ≤ c.entries.length then evictOldest c else c
    { c' with
      entries := c'.entries ++ [⟨k, v, now⟩],
      disk := diskWrite c'.disk k (DiskFile.good v now) }

/-- Modelled from the spec: `client_cache_get(cache, key)` at time
`now` (spec section 4.3, `client_cache.h`).  Returns the value (a copy)
together with the possibly updated cache state.  A memory hit within
TTL returns the value without touching the recency order; an expired
in-memory entry is treated as a miss (not evicted by the get); on a
memory miss the entry's disk file is consulted, and a fresh disk entry
is promoted into memory subject to the same capacity rule as set.  All
failure modes (missing key, expiry, unreadable file) uniformly return
no value; the operation cannot raise an error. -/
def client_cache_get (c : ClientCache) (k : String) (now : Nat) :
    Option String × ClientCache :=
  match memFind c.entries k with
  | some e =>
    if now - e.timestamp ≤ c.defaultTtl then (some e.value, c) else (none, c)
  | none =>
    match diskRead c.disk k with
    | some (DiskFile.good v ts) =>
      if now - ts ≤ c.defaultTtl then
        let c' := if c.maxEntries ≤ c.entries.length then evictOldest c else c
        (some v, { c' with entries := c'.entries ++ [⟨k, v, ts⟩] })
      else (none, c)
    | some DiskFile.corrupt => (none, c)
    | none => (none, c)

/-- Modelled from the spec: `client_cache_clear` removes all in-memory
entries and deletes every entry's on-disk file. -/
def client_cache_clear (c : ClientCache) : ClientCache :=
  { c with entries := [], disk := [] }

/-- One observable Cache Engine operation, for stating invariants over
arbitrary operation sequences. -/
inductive CacheOp where
  | set (k v : String) (now : Nat)
  | get (k : String) (now : Nat)
  | clear
deriving Repr, DecidableEq

/-- Apply one operation to the cache state. -/
def cacheApply (c : ClientCache) : CacheOp → ClientCache
  | CacheOp.set k v now => client_cache_set c k v now
  | CacheOp.get k now => (client_cache_get c k now).2
  | CacheOp.clear => client_cache_clear c

/-- Run a sequence of operations from a starting state. -/
def cacheRun (c : ClientCache) : List CacheOp → ClientCache
  | [] => c
  | op :: ops => cacheRun (cacheApply c op) ops

/- ===================================================================
   Protocol Client (HTTP/1.1) response processing model.
   =================================================================== -/

/-- Error kinds used throughout the design (spec section 7). -/
inductive HttpError where
  | InvalidArgument
  | Timeout
  | ConnectionError
  | IOError
  | ProtocolError
deriving Repr, DecidableEq

/-- Split a raw response at the first blank line (CRLF CRLF) separating
the header section from the body; `none` when no blank line occurs. -/
def splitAtBlankLine : List Char → Option (List Char × List Char)
  | '\r' :: '\n' :: '\r' :: '\n' :: rest => some ([], rest)
  | [] => none
  | c :: rest => (splitAtBlankLine rest).map (fun p => (c :: p.1, p.2))

/-- Split the header section into CRLF-separated lines. -/
def splitCRLF : List Char → List (List Char)
  | [] => [[]]
  | '\r' :: '\n' :: rest => [] :: splitCRLF rest
  | c :: rest =>
    match splitCRLF rest with
    | [] => [[c]]
    | l :: ls => (c :: l) :: ls

/-- Decimal value of a digit string. -/
def natOfDigits (l : List Char) : Nat :=
  l.foldl (fun n c => n * 10 + (c.toNat - 48)) 0

/-- Modelled from the spec: parse the status line to extract the
numeric status code (spec section 4.2 step 5).  A line that does not
start with the HTTP version token or carries no numeric code counts as
an absent status line (data from the wrong protocol). -/
def parseStatusCode (line : List Char) : Option Nat :=
  if ("HTTP/".data).isPrefixOf line then
    match line.dropWhile (fun c => !(c == ' ')) with
    | [] => none
    | _ :: rest =>
      let ds := rest.takeWhile Char.isDigit
      if ds.isEmpty then none else some (natOfDigits ds)
  else none

/-- Lower-case every character of a header token. -/
def toLowerList (l : List Char) : List Char := l.map Char.toLower

/-- Strip leading and trailing spaces of a header token. -/
def trimSpaces (l : List Char) : List Char :=
  ((l.dropWhile (fun c => c == ' ')).reverse.dropWhile (fun c => c == ' ')).reverse

/-- Split a header line at the first colon into name and value. -/
def splitHeaderLine (line : List Char) : Option (List Char × List Char) :=
  let name := line.takeWhile (fun c => !(c == ':'))
  match line.dropWhile (fun c => !(c == ':')) with
  | [] => none
  | _ :: v => some (name, v)

/-- Does this header line declare chunked transfer encoding? -/
def isChunkedHeader (line : List Char) : Bool :=
  match splitHeaderLine line with
  | some (n, v) =>
    toLowerList (trimSpaces n) == ("transfer-encoding".data) &&
    toLowerList (trimSpaces v) == ("chunked".data)
  | none => false

/-- A `Transfer-Encoding: chunked` header is present. -/
def hasChunked (headers : List (List Char)) : Bool :=
  headers.any isChunkedHeader

/-- The declared `Content-Length`, if such a header is present. -/
def contentLengthOf (headers : List (List Char)) : Option Nat :=
  headers.findSome? (fun line =>
    match splitHeaderLine line with
    | some (n, v) =>
      if toLowerList (trimSpaces n) == ("content-length".data) then
        let ds := (trimSpaces v).takeWhile Char.isDigit
        if ds.isEmpty then none else some (natOfDigits ds)
      else none
    | none => none)

/-- Value of a hexadecimal digit. -/
def hexVal (c : Char) : Option Nat :=
  if c.isDigit then some (c.toNat - 48)
  else if 'a' ≤ c ∧ c ≤ 'f' then some (c.toNat - 87)
  else if 'A' ≤ c ∧ c ≤ 'F' then some (c.toNat - 55)
  else none

/-- Modelled from the spec: a hexadecimal chunk-size line; a line that
does not begin with a hex digit is malformed. -/
def parseHexLine (line : List Char) : Option Nat :=
  let ds := line.takeWhile (fun c => (hexVal c).isSome)
  if ds.isEmpty then none
  else some (ds.foldl (fun n c => n * 16 + ((hexVal c).getD 0)) 0)

/-- Read one CRLF-terminated line, returning it and the remainder. -/
def readLine : List Char → Option (List Char × List Char)
  | [] => none
  | '\r' :: '\n' :: rest => some ([], rest)
  | c :: rest => (readLine rest).map (fun p => (c :: p.1, p.2))

/-- Modelled from the spec: chunked framing (spec section 4.2 step 6):
repeatedly read a hexadecimal chunk-size line, then that many bytes of
chunk data, then a line terminator, until a zero-size chunk marks the
end; trailing headers after the terminal chunk are consumed and
discarded.  A malformed chunk-size line is a `ProtocolError`; a body
that ends before the declared chunk data is an `IOError`.  The fuel
argument bounds the recursion and always suffices when it exceeds the
input length. -/
def decodeChunkedAux : Nat → List Char → Except HttpError (List Char)
  | 0, _ => Except.error HttpError.ProtocolError
  | fuel + 1, s =>
    match readLine s with
    | none => Except.error HttpError.ProtocolError
    | some (line, rest) =>
      match parseHexLine line with
      | none => Except.error HttpError.ProtocolError
      | some 0 => Except.ok []
      | some (n + 1) =>
        let chunk := rest.take (n + 1)
        if chunk.length = n + 1 then
          match rest.drop (n + 1) with
          | '\r' :: '\n' :: rest' =>
            (decodeChunkedAux fuel rest').map (fun t => chunk ++ t)
          | _ => Except.error HttpError.ProtocolError
        else Except.error HttpError.IOError

/-- Chunked decoding of a complete body. -/
def decodeChunked (s : List Char) : Except HttpError (List Char) :=
  decodeChunkedAux (s.length + 1) s

/-- Modelled from the spec: the two mutually exclusive body-framing
modes chosen by header inspection; a `Transfer-Encoding: chunked`
header takes precedence over `Content-Length` (spec section 4.2 step
6).  Under Content-Length framing a peer that closes before the
declared length is an `IOError`. -/
def frameBody (headers : List (List Char)) (body : List Char) :
    Except HttpError (List Char) :=
  if hasChunked headers then decodeChunked body
  else
    match contentLengthOf headers with
    | some n =>
      if n ≤ body.length then Except.ok (body.take n)
      else Except.error HttpError.IOError
    | none => Except.ok body

/-- Modelled from the spec: the response-processing phase of
`http_client_get` (spec section 4.2 steps 5-7): split the received
bytes at the blank line, parse the status line, reject a missing
status line or a code outside [200, 599] with `ProtocolError`, then
decode the body according to the framing headers. -/
def http_process_response (resp : List Char) : Except HttpError (Nat × List Char) :=
  match splitAtBlankLine resp with
  | none => Except.error HttpError.ProtocolError
  | some (head, body) =>
    match splitCRLF head with
    | [] => Except.error HttpError.ProtocolError
    | statusLine :: headerLines =>
      match parseStatusCode statusLine with
      | none => Except.error HttpError.ProtocolError
      | some code =>
        if code < 200 ∨ 599 < code then Except.error HttpError.ProtocolError
        else (frameBody headerLines body).map (fun b => (code, b))

/- ===================================================================
   Orchestration layer: make_request (src weather_client.c).
   =================================================================== -/

/-- JSON values as produced by the external JSON codec (jansson), which
the spec treats as a collaborator specified only at its interface. -/
inductive JsonVal where
  | null
  | boolean (b : Bool)
  | number (n : Int)
  | str (s : String)
  | arr (elems : List JsonVal)
  | obj (fields : List (String × JsonVal))

/-- `json_object_get(result, "key")`: field lookup, `NULL` (none) when
the value is not an object or the key is absent. -/
def json_object_get : JsonVal → String → Option JsonVal
  | JsonVal.obj fields, k => (fields.find? (fun p => p.1 == k)).map (fun p => p.2)
  | _, _ => none

/-- The `success`-field acceptance test of `make_request`: a response
is rejected only when its `success` field is present and is the boolean
`false` (mirrors `json_is_boolean` + `json_boolean_value`). -/
def successNotFalse (j : JsonVal) : Bool :=
  match json_object_get j "success" with
  | some (JsonVal.boolean false) => false
  | _ => true

/-- Environment of one `make_request` call: the JSON codec, the value
the cache returns for the cache key, whether `http_client_get` succeeds
and the body it exposes afterwards. -/
structure MakeRequestEnv where
  jparse : String → Option JsonVal
  cached : Option String
  httpOk : Bool
  httpBody : Option String

/-- Observable outcome of one `make_request` call: the JSON result
returned to the caller, whether the HTTP request was issued, and the
body written to the cache (if any). -/
structure MakeRequestResult where
  result : Option JsonVal
  httpCalled : Bool
  cacheWrite : Option String

/-- The network phase of `make_request` from `weather_client.c`
(lines 290-346), entered when the cache yields no parseable body:
issue the HTTP request, read the body, parse it, reject a response
whose `success` field is the boolean false, and only on the fully
successful path store the body into the cache. -/
def make_request_net (env : MakeRequestEnv) : MakeRequestResult :=
  if env.httpOk = false then
    { result := none, httpCalled := true, cacheWrite := none }
  else
    match env.httpBody with
    | none => { result := none, httpCalled := true, cacheWrite := none }
    | some body =>
      match env.jparse body with
      | none => { result := none, httpCalled := true, cacheWrite := none }
      | some j =>
        if successNotFalse j = true then
          { result := some j, httpCalled := true, cacheWrite := some body }
        else
          { result := none, httpCalled := true, cacheWrite := none }

/-- `make_request` itself: the cache-first phase.  A cached body that
parses is returned with no network activity; a cache miss, and equally
a cached body that fails to parse, falls through to the network
phase. -/
def make_request (env : MakeRequestEnv) : MakeRequestResult :=
  match (match env.cached with
         | some cached => env.jparse cached
         | none => none) with
  | some j => { result := some j, httpCalled := false, cacheWrite := none }
  | none => make_request_net env

/- ===================================================================
   Async path: state machine worker (weather_client_smw.c) and the
   global request table (async weather_client.c).
   =================================================================== -/

/-- Request states of the async path (`RequestState` in
`weather_client_smw.h`, as used by `weather_client_smw.c`). -/
inductive RequestState where
  | idle
  | queued
  | connecting
  | sending
  | receiving
  | processing
  | completed
  | error
deriving Repr, DecidableEq

/-- One request slot as seen by the state machine worker: whether its
`base_url` is live (non-null) and its current state. -/
structure SmwRequest where
  live : Bool
  state : RequestState
deriving Repr, DecidableEq

/-- The state transition performed by one `weather_client_smw_work_impl`
call on one request (`weather_client_smw.c` lines 45-104): each of
Queued, Connecting, Sending, Receiving advances to the next state;
Processing executes the HTTP request and advances to Completed;
Completed, Error and all other states are left unchanged. -/
def smwStepState : RequestState → RequestState
  | RequestState.queued => RequestState.connecting
  | RequestState.connecting => RequestState.sending
  | RequestState.sending => RequestState.receiving
  | RequestState.receiving => RequestState.processing
  | RequestState.processing => RequestState.completed
  | RequestState.completed => RequestState.completed
  | RequestState.error => RequestState.error
  | RequestState.idle => RequestState.idle

/-- Whether the step on a request in state `s` invokes the HTTP
executor (it does exactly in the `REQ_STATE_PROCESSING` case). -/
def smwStepExec : RequestState → Bool
  | RequestState.processing => true
  | _ => false

/-- Whether the step counts the request as active (the `active++`
branches: Queued, Connecting, Sending, Receiving). -/
def smwStepActive : RequestState → Bool
  | RequestState.queued => true
  | RequestState.connecting => true
  | RequestState.sending => true
  | RequestState.receiving => true
  | _ => false

/-- One `weather_client_smw_work_impl` visit of a single request slot:
a request with no live `base_url` is skipped entirely; otherwise its
state advances by `smwStepState` and the executor is invoked exactly
when the request was in the Processing state. -/
def smwStepReq (r : SmwRequest) : SmwRequest × Bool :=
  if r.live then ({ r with state := smwStepState r.state }, smwStepExec r.state)
  else (r, false)

/-- `weather_client_smw_work_impl` over the whole request table: every
slot is visited once per call; the returned count is the number of live
requests in an `active++` state. -/
def weather_client_smw_work_impl (reqs : List SmwRequest) : List SmwRequest × Nat :=
  (reqs.map (fun r => (smwStepReq r).1),
   (reqs.filter (fun r => r.live && smwStepActive r.state)).length)

/-- Position of a state along the fixed forward order Queued ->
Connecting -> Sending -> Receiving -> Processing -> Completed (Error is
terminal alongside Completed; Idle never transitions). -/
def smwRank : RequestState → Nat
  | RequestState.idle => 0
  | RequestState.queued => 0
  | RequestState.connecting => 1
  | RequestState.sending => 2
  | RequestState.receiving => 3
  | RequestState.processing => 4
  | RequestState.completed => 5
  | RequestState.error => 5

/-- State of a live request after `n` work calls. -/
def smwIter : Nat → RequestState → RequestState
  | 0, s => s
  | n + 1, s => smwIter n (smwStepState s)

/-- `MAX_REQUESTS` from the async `weather_client.c`. -/
def MAX_REQUESTS : Nat := 16

/-- One slot of the global request table `g_requests` (async
`weather_client.c`). -/
structure AsyncRequest where
  base_url : String
  endpoint : String
  query : String
  state : RequestState
  start_time : Nat
deriving Repr, DecidableEq

/-- The global mutable state of the async path: `g_base_url` plus the
first `g_request_count` slots of `g_requests`. -/
structure AsyncTable where
  base_url : String
  requests : List AsyncRequest
deriving Repr, DecidableEq

/-- The request table at program start: count zero. -/
def asyncInitial : AsyncTable := { base_url := "", requests := [] }

/-- `weather_client_init(base_url)`: store the base URL (truncated as
by `strncpy` into a 256-byte buffer) and reset the count. -/
def weather_client_init (base : String) : AsyncTable :=
  { base_url := base.take 255, requests := [] }

/-- `weather_client_current_async` (async `weather_client.c` lines
114-133): refuse with -1 when the table is full, otherwise append one
new request in the Queued state. -/
def weather_client_current_async (t : AsyncTable) (city country : String) :
    AsyncTable × Int :=
  if MAX_REQUESTS ≤ t.requests.length then (t, -1)
  else
    ({ t with requests := t.requests ++
        [{ base_url := t.base_url,
           endpoint := "weather",
           query := ("city=" ++ city ++ "&country=" ++ country ++ "&current=true").take 255,
           state := RequestState.queued,
           start_time := 0 }] }, 0)

/-- `weather_client_forecast_async` (async `weather_client.c` lines
135-155): same admission control, with a forecast query string. -/
def weather_client_forecast_async (t : AsyncTable) (city country : String)
    (days : Int) : AsyncTable × Int :=
  if MAX_REQUESTS ≤ t.requests.length then (t, -1)
  else
    ({ t with requests := t.requests ++
        [{ base_url := t.base_url,
           endpoint := "weather",
           query := ("city=" ++ city ++ "&country=" ++ country ++
                     "&forecast=true&days=" ++ toString days).take 255,
           state := RequestState.queued,
           start_time := 0 }] }, 0)

/-- The operations that touch the global request table.  `poll`
processes every request and resets the count to zero; `cleanup` frees
the slots and resets the count; `smw` advances states in place. -/
inductive AsyncOp where
  | init (base : String)
  | current (city country : String)
  | forecast (city country : String) (days : Int)
  | poll
  | cleanup
  | smw

/-- Apply one async operation to the table. -/
def asyncApply (t : AsyncTable) : AsyncOp → AsyncTable
  | AsyncOp.init base => weather_client_init base
  | AsyncOp.current city country => (weather_client_current_async t city country).1
  | AsyncOp.forecast city country days =>
    (weather_client_forecast_async t city country days).1
  | AsyncOp.poll => { t with requests := [] }
  | AsyncOp.cleanup => { t with requests := [] }
  | AsyncOp.smw =>
    { t with requests := t.requests.map (fun r => { r with state := smwStepState r.state }) }

/-- Run a sequence of async operations. -/
def asyncRun (t : AsyncTable) : List AsyncOp → AsyncTable
  | [] => t
  | op :: ops => asyncRun (asyncApply t op) ops

/- ===================================================================
   Async path: URL parsing and request construction (http_get_sync in
   the async weather_client.c).
   =================================================================== -/

/-- `sscanf` character-set conversion `%N[...]`: the longest prefix of
at most `max` characters satisfying `p`, and the remaining input. -/
def scanSet (p : Char → Bool) : Nat → List Char → List Char × List Char
  | _, [] => ([], [])
  | 0, l => ([], l)
  | max + 1, c :: cs =>
    if p c then
      let r := scanSet p max cs
      (c :: r.1, r.2)
    else ([], c :: cs)

/-- Literal text in an `sscanf` format: the input must begin with it. -/
def dropLit (lit : List Char) (s : List Char) : Option (List Char) :=
  match lit, s with
  | [], rest => some rest
  | _ :: _, [] => none
  | c :: cs, x :: xs => if x = c then dropLit cs xs else none

/-- A non-empty run of decimal digits and its value. -/
def scanDigits (s : List Char) : Option (Nat × List Char) :=
  let ds := s.takeWhile Char.isDigit
  if ds.isEmpty then none
  else some (natOfDigits ds, s.dropWhile Char.isDigit)

/-- `sscanf` `%d`: optional whitespace, optional sign, digits. -/
def scanInt (s : List Char) : Option (Int × List Char) :=
  let s1 := s.dropWhile Char.isWhitespace
  match s1 with
  | '-' :: rest => (scanDigits rest).map (fun p => (-(p.1 : Int), p.2))
  | '+' :: rest => (scanDigits rest).map (fun p => ((p.1 : Int), p.2))
  | _ => (scanDigits s1).map (fun p => ((p.1 : Int), p.2))

/-- Result of the URL parsing in `http_get_sync`: hostname, port
(defaulted to 80 when the URL carries none) and the path component
after the first slash.  `path = none` records that the path conversion
did not happen; the C code then reads an uninitialized buffer, so those
URLs are excluded from the modelled request construction. -/
structure UrlParts where
  host : List Char
  port : Int
  path : Option (List Char)
deriving Repr, DecidableEq

/-- First `sscanf` pattern of `http_get_sync`:
`http://%255[^:/]:%d/%511[^\n]`, accepted when at least the host and
port convert (the C code tests `< 2`). -/
def parse_url_pattern1 (s : List Char) : Option UrlParts :=
  match dropLit ("http://".data) s with
  | none => none
  | some s1 =>
    let hp := scanSet (fun c => !(c == ':' || c == '/')) 255 s1
    if hp.1.isEmpty then none
    else
      match hp.2 with
      | ':' :: s3 =>
        match scanInt s3 with
        | none => none
        | some (port, s4) =>
          match s4 with
          | '/' :: s5 =>
            let pp := scanSet (fun c => !(c == '\n')) 511 s5
            some { host := hp.1, port := port,
                   path := if pp.1.isEmpty then none else some pp.1 }
          | _ => some { host := hp.1, port := port, path := none }
      | _ => none

/-- Second `sscanf` pattern of `http_get_sync`:
`http://%255[^/]/%511[^\n]`, accepted when at least the host converts
(the C code tests `< 1`). -/
def parse_url_pattern2 (s : List Char) : Option (List Char × Option (List Char)) :=
  match dropLit ("http://".data) s with
  | none => none
  | some s1 =>
    let hp := scanSet (fun c => !(c == '/')) 255 s1
    if hp.1.isEmpty then none
    else
      match hp.2 with
      | '/' :: s3 =>
        let pp := scanSet (fun c => !(c == '\n')) 511 s3
        some (hp.1, if pp.1.isEmpty then none else some pp.1)
      | _ => some (hp.1, none)

/-- URL parsing of `http_get_sync` (async `weather_client.c` lines
29-37): `port` starts at 80, the first pattern may overwrite it, and
the second pattern is tried only when the first is rejected. -/
def parse_url (s : List Char) : Option UrlParts :=
  match parse_url_pattern1 s with
  | some u => some u
  | none =>
    (parse_url_pattern2 s).map (fun p => { host := p.1, port := 80, path := p.2 })

/-- The request text built by `http_get_sync` (lines 62-67):
`GET /<path> HTTP/1.1`, a `Host` header and `Connection: close`. -/
def build_http_request (host path : List Char) : List Char :=
  ("GET /".data) ++ path ++ (" HTTP/1.1\r\nHost: ".data) ++ host ++
  ("\r\nConnection: close\r\n\r\n".data)

/-- The connect-and-send phase of `http_get_sync`: for an accepted URL
whose path component converted, the host and port the socket connects
to and the bytes sent (truncated by `snprintf` to the 1024-byte request
buffer, 1023 characters plus the terminator). -/
def http_get_sync_request (url : List Char) : Option (List Char × Int × List Char) :=
  match parse_url url with
  | none => none
  | some u =>
    match u.path with
    | some pa => some (u.host, u.port, (build_http_request u.host pa).take 1023)
    | none => none

/- ===================================================================
   Orchestration layer: WeatherClient structure (src weather_client.c).
   =================================================================== -/

/-- `CACHE_MAX_ENTRIES` from `client_cache.h`. -/
def CACHE_MAX_ENTRIES : Nat := 50

/-- `CACHE_DEFAULT_TTL` from `client_cache.h`. -/
def CACHE_DEFAULT_TTL : Nat := 300

/-- The `HttpClient` structure from `http_client.h`.  Its constructor
is modelled from the header documentation: a non-positive timeout
argument defaults to 5000 ms, otherwise the argument is stored. -/
structure HttpClient where
  timeout_ms : Int
  status_code : Int
  response_body : Option String
deriving Repr, DecidableEq

/-- `http_client_create(timeout_ms)` per `http_client.h`. -/
def http_client_create (timeout_ms : Int) : HttpClient :=
  { timeout_ms := if timeout_ms ≤ 0 then 5000 else timeout_ms,
    status_code := 0,
    response_body := none }

/-- `struct WeatherClient` from the orchestration `weather_client.c`:
owned HTTP client, cache, server host (256-byte buffer), port and
timeout. -/
structure WeatherClient where
  http : HttpClient
  cache : ClientCache
  server_host : String
  server_port : Int
  timeout_ms : Int
deriving Repr, DecidableEq

/-- `weather_client_create(host, port)` (lines 27-52): host defaults to
"localhost" (`strncpy` bounded at 255 characters), port defaults to
10680 when non-positive, timeout is 5000 ms, and the owned HTTP client
and cache are created with that timeout and the default cache
configuration. -/
def weather_client_create (host : Option String) (port : Int) : WeatherClient :=
  { server_host := (host.getD "localhost").take 255,
    server_port := if 0 < port then port else 10680,
    timeout_ms := 5000,
    http := http_client_create 5000,
    cache := client_cache_create CACHE_MAX_ENTRIES CACHE_DEFAULT_TTL }

/-- `weather_client_set_timeout(client, timeout_ms)` (lines 274-278):
for a non-null client, store the argument in the client's `timeout_ms`
field; nothing else is touched. -/
def weather_client_set_timeout (c : WeatherClient) (t : Int) : WeatherClient :=
  { c with timeout_ms := t }

/- ===================================================================
   Concrete instances used by the spec's capacity and chunked tests.
   =================================================================== -/

/-- The spec's capacity scenario: a Cache Engine with `max_entries = 2`
after inserting the three distinct keys A, B, C in order. -/
def capacityDemo : ClientCache :=
  client_cache_set (client_cache_set (client_cache_set
    (client_cache_create 2 300) "A" "1" 0) "B" "2" 1) "C" "3" 2

/-- The spec's chunked body example. -/
def wikiChunks : List Char :=
  ("4\r\nWiki\r\n5\r\npedia\r\n0\r\n\r\n").data

/-- A full response carrying the chunked body example together with a
competing `Content-Length` header. -/
def wikiResponse : List Char :=
  ("HTTP/1.1 200 OK\r\nContent-Length: 3\r\nTransfer-Encoding: chunked\r\n\r\n4\r\nWiki\r\n5\r\npedia\r\n0\r\n\r\n").data

/-- A full request table with 16 queued slots. -/
def fullTableDemo : AsyncTable :=
  { base_url := "http://localhost:10680/v1",
    requests := List.replicate 16
      { base_url := "http://localhost:10680/v1",
        endpoint := "weather",
        query := "city=Stockholm&country=SE&current=true",
        state := RequestState.queued,
        start_time := 0 } }

/-- A cache state whose only trace of key K is an unreadable disk
file. -/
def corruptDemo : ClientCache :=
  { entries := [], maxEntries := 2, defaultTtl := 300,
    disk := [("K", DiskFile.corrupt)] }

/- ===================================================================
   Cache Engine lemmas.
   =================================================================== -/

theorem evictOldest_entries (c : ClientCache) : (evictOldest c).entries = c.entries.tail := by
  cases hc : c.entries with
  | nil => simp [evictOldest, hc]
  | cons e l => simp [evictOldest, hc]

theorem evictOldest_maxEntries (c : ClientCache) :
    (evictOldest c).maxEntries = c.maxEntries := by
  cases hc : c.entries with
  | nil => simp [evictOldest, hc]
  | cons e l => simp [evictOldest, hc]

theorem length_filter_not_lt (p : α → Bool) (l : List α) (h : (l.find? p).isSome) :
    (l.filter (fun a => !(p a))).length < l.length := by
  induction l with
  | nil => simp [List.find?] at h
  | cons a l ih =>
    by_cases hp : p a
    · simp [List.filter, hp]
      exact Nat.lt_succ_of_le (List.length_filter_le _ _)
    · rw [List.find?_cons_of_neg _ hp] at h
      have := ih h
      simp [List.filter, hp]
      omega

theorem memFind_memErase (l : List CacheEntry) (k : String) :
    memFind (memErase l k) k = none := by
  rw [memFind, List.find?_eq_none]
  intro x hx
  simp [memErase, List.mem_filter] at hx
  simp [hx.2]

theorem memFind_append_self (l : List CacheEntry) (k : String) (e : CacheEntry)
    (hk : e.key = k) (h : memFind l k = none) :
    memFind (l ++ [e]) k = some e := by
  rw [memFind, List.find?_append]
  rw [memFind] at h
  simp [h, List.find?, hk]

theorem memFind_tail (l : List CacheEntry) (k : String) (h : memFind l k = none) :
    memFind l.tail k = none := by
  cases l with
  | nil => simp [memFind, List.find?]
  | cons a l =>
    rw [memFind, List.find?_eq_none] at h ⊢
    intro x hx
    exact h x (List.mem_cons_of_mem a hx)

theorem client_cache_set_length (c : ClientCache) (k v : String) (now : Nat)
    (hmax : 0 < c.maxEntries) (h : c.entries.length ≤ c.maxEntries) :
    (client_cache_set c k v now).entries.length ≤ c.maxEntries := by
  unfold client_cache_set
  by_cases hf : (memFind c.entries k).isSome
  · simp only [hf, if_true]
    have hf' : ((c.entries.find? (fun e => e.key == k)).isSome : Prop) := hf
    have hlt : (memErase c.entries k).length < c.entries.length :=
      length_filter_not_lt (fun e : CacheEntry => e.key == k) c.entries hf'
    simp [memErase] at hlt ⊢
    omega
  · simp only [hf, if_false]
    by_cases hcap : c.maxEntries ≤ c.entries.length
    · simp only [hcap, if_true]
      simp [evictOldest_entries]
      omega
    · simp only [hcap, if_false]
      simp
      omega

theorem client_cache_get_length (c : ClientCache) (k : String) (now : Nat)
    (hmax : 0 < c.maxEntries) (h : c.entries.length ≤ c.maxEntries) :
    (client_cache_get c k now).2.entries.length ≤ c.maxEntries := by
  unfold client_cache_get
  cases hm : memFind c.entries k with
  | some e => by_cases ht : now - e.timestamp ≤ c.defaultTtl <;> simp [ht, h]
  | none =>
    cases hd : diskRead c.disk k with
    | none => simpa using h
    | some f =>
      cases f with
      | corrupt => simpa using h
      | good v ts =>
        by_cases ht : now - ts ≤ c.defaultTtl
        · simp only [ht, if_true]
          by_cases hcap : c.maxEntries ≤ c.entries.length
          · simp [hcap, evictOldest_entries]
            omega
          · simp [hcap]
            omega
        · simpa [ht] using h

theorem cacheApply_maxEntries (c : ClientCache) (op : CacheOp) :
    (cacheApply c op).maxEntries = c.maxEntries := by
  cases op with
  | set k v now =>
    simp only [cacheApply]
    unfold client_cache_set
    by_cases hf : (memFind c.entries k).isSome
    · simp [hf]
    · by_cases hcap : c.maxEntries ≤ c.entries.length <;>
        simp [hf, hcap, evictOldest_maxEntries]
  | get k now =>
    simp only [cacheApply]
    unfold client_cache_get
    cases hm : memFind c.entries k with
    | some e => by_cases ht : now - e.timestamp ≤ c.defaultTtl <;> simp [ht]
    | none =>
      cases hd : diskRead c.disk k with
      | none => simp
      | some f =>
        cases f with
        | corrupt => simp
        | good v ts =>
          by_cases ht : now - ts ≤ c.defaultTtl
          · by_cases hcap : c.maxEntries ≤ c.entries.length <;>
              simp [ht, hcap, evictOldest_maxEntries]
          · simp [ht]
  | clear => simp [cacheApply, client_cache_clear]

theorem cacheApply_length (c : ClientCache) (op : CacheOp)
    (hmax : 0 < c.maxEntries) (h : c.entries.length ≤ c.maxEntries) :
    (cacheApply c op).entries.length ≤ c.maxEntries := by
  cases op with
  | set k v now => exact client_cache_set_length c k v now hmax h
  | get k now => exact client_cache_get_length c k now hmax h
  | clear => simp [cacheApply, client_cache_clear]

theorem cacheRun_maxEntries (ops : List CacheOp) (c : ClientCache) :
    (cacheRun c ops).maxEntries = c.maxEntries := by
  induction ops generalizing c with
  | nil => rfl
  | cons op ops ih => rw [cacheRun, ih, cacheApply_maxEntries]

theorem cacheRun_length (ops : List CacheOp) (c : ClientCache)
    (hmax : 0 < c.maxEntries) (h : c.entries.length ≤ c.maxEntries) :
    (cacheRun c ops).entries.length ≤ c.maxEntries := by
  induction ops generalizing c with
  | nil => exact h
  | cons op ops ih =>
    have hmax' : 0 < (cacheApply c op).maxEntries := by
      rw [cacheApply_maxEntries]; exact hmax
    have h' : (cacheApply c op).entries.length ≤ (cacheApply c op).maxEntries := by
      rw [cacheApply_maxEntries]; exact cacheApply_length c op hmax h
    have := ih (cacheApply c op) hmax' h'
    rw [cacheApply_maxEntries] at this
    exact this

/-- Claim C1: for every Cache Engine created with maximum entry count
N (N positive, as in every configuration the program uses), the number
of in-memory entries never exceeds N after any sequence of
set/get/clear operations; when a set inserts a key not currently
present into a full index, the entry removed is the least recently
inserted or updated one (the front of the recency order), and a get on
a key present in memory never changes any entry's eviction position;
with N = 2 and keys A, B, C set in order, get(A) misses while get(B)
and get(C) hit. -/
theorem C1_cache_capacity_and_eviction :
    (∀ (N ttl : Nat) (ops : List CacheOp), 0 < N →
      (cacheRun (client_cache_create N ttl) ops).entries.length ≤ N) ∧
    (∀ (c : ClientCache) (k v : String) (now : Nat),
      memFind c.entries k = none → c.maxEntries ≤ c.entries.length →
      (client_cache_set c k v now).entries = c.entries.tail ++ [⟨k, v, now⟩]) ∧
    (∀ (c : ClientCache) (k : String) (now : Nat),
      (memFind c.entries k).isSome → (client_cache_get c k now).2 = c) ∧
    ((client_cache_get capacityDemo "A" 3).1 = none ∧
     (client_cache_get capacityDemo "B" 3).1 = some "2" ∧
     (client_cache_get capacityDemo "C" 3).1 = some "3") := by
  refine ⟨?_, ?_, ?_, ?_⟩
  · intro N ttl ops hN
    exact cacheRun_length ops (client_cache_create N ttl) hN (by simp [client_cache_create])
  · intro c k v now hf hcap
    have hns : ¬ (memFind c.entries k).isSome = true := by simp [hf]
    unfold client_cache_set
    simp [hns, hcap, evictOldest_entries]
  · intro c k now hf
    unfold client_cache_get
    cases hm : memFind c.entries k with
    | none => rw [hm] at hf; simp at hf
    | some e => by_cases ht : now - e.timestamp ≤ c.defaultTtl <;> simp [ht]
  · decide

/-- Witness for C1: the capacity bound applied to the spec's concrete
scenario (N = 2, three sets). -/
theorem C1_witness :
    (cacheRun (client_cache_create 2 300)
      [CacheOp.set "A" "1" 0, CacheOp.set "B" "2" 1, CacheOp.set "C" "3" 2]).entries.length ≤ 2 :=
  C1_cache_capacity_and_eviction.1 2 300
    [CacheOp.set "A" "1" 0, CacheOp.set "B" "2" 1, CacheOp.set "C" "3" 2] (by decide)

/-- Claim C2: for every key and value, a set followed immediately by a
get of the same key (no intervening operations, no time passing and
hence no TTL expiry) returns a value equal to the one stored.  The
model returns values, not stored pointers; the header documents the
returned string as a freshly allocated copy owned by the caller. -/
theorem C2_set_get_roundtrip (c : ClientCache) (k v : String) (now : Nat) :
    (client_cache_get (client_cache_set c k v now) k now).1 = some v := by
  unfold client_cache_set
  by_cases h : (memFind c.entries k).isSome
  · simp only [h, if_true]
    have hfind : memFind (memErase c.entries k ++ [⟨k, v, now⟩]) k = some ⟨k, v, now⟩ :=
      memFind_append_self _ _ _ rfl (memFind_memErase _ _)
    simp [client_cache_get, hfind]
  · simp only [h, if_false]
    have hnone : memFind c.entries k = none := by
      cases hm : memFind c.entries k with
      | none => rfl
      | some e => rw [hm] at h; simp at h
    by_cases hcap : c.maxEntries ≤ c.entries.length
    · simp only [hcap, if_true]
      have h1 : memFind (evictOldest c).entries k = none := by
        rw [evictOldest_entries]; exact memFind_tail _ _ hnone
      have hfind : memFind ((evictOldest c).entries ++ [⟨k, v, now⟩]) k = some ⟨k, v, now⟩ :=
        memFind_append_self _ _ _ rfl h1
      simp [client_cache_get, hfind]
    · simp only [hcap, if_false]
      have hfind : memFind (c.entries ++ [⟨k, v, now⟩]) k = some ⟨k, v, now⟩ :=
        memFind_append_self _ _ _ rfl hnone
      simp [client_cache_get, hfind]

/-- Claim C5: `client_cache_get` returns the no-value result and
leaves the cache unchanged in every failure mode: key absent from
memory and disk, entry expired in memory, entry expired on disk, and
unreadable disk file; all four cases produce the same observable
result as a plain miss, and the operation's type admits no error. -/
theorem C5_get_miss_uniformity :
    (∀ (c : ClientCache) (k : String) (now : Nat),
      memFind c.entries k = none → diskRead c.disk k = none →
      client_cache_get c k now = (none, c)) ∧
    (∀ (c : ClientCache) (k : String) (now : Nat) (e : CacheEntry),
      memFind c.entries k = some e → c.defaultTtl < now - e.timestamp →
      client_cache_get c k now = (none, c)) ∧
    (∀ (c : ClientCache) (k : String) (now : Nat) (v : String) (ts : Nat),
      memFind c.entries k = none → diskRead c.disk k = some (DiskFile.good v ts) →
      c.defaultTtl < now - ts →
      client_cache_get c k now = (none, c)) ∧
    (∀ (c : ClientCache) (k : String) (now : Nat),
      memFind c.entries k = none → diskRead c.disk k = some DiskFile.corrupt →
      client_cache_get c k now = (none, c)) := by
  refine ⟨?_, ?_, ?_, ?_⟩
  · intro c k now hf hd
    unfold client_cache_get
    simp [hf, hd]
  · intro c k now e hf ht
    unfold client_cache_get
    simp [hf, Nat.not_le.mpr ht]
  · intro c k now v ts hf hd ht
    unfold client_cache_get
    simp [hf, hd, Nat.not_le.mpr ht]
  · intro c k now hf hd
    unfold client_cache_get
    simp [hf, hd]

/-- Witness for C5: the unreadable-disk-file case on a concrete cache
state. -/
theorem C5_witness : client_cache_get corruptDemo "K" 0 = (none, corruptDemo) :=
  C5_get_miss_uniformity.2.2.2 corruptDemo "K" 0 (by decide) (by decide)

/- ===================================================================
   Protocol Client theorems.
   =================================================================== -/

/-- Claim C3: chunked bodies are decoded by repeatedly reading a
hexadecimal chunk-size line and that many bytes until the zero-size
chunk, chunked framing takes precedence over `Content-Length` whenever
the `Transfer-Encoding: chunked` header is present, and the spec's
concrete chunk stream decodes to "Wikipedia" (also through the full
response processing with a competing `Content-Length: 3` header). -/
theorem C3_chunked_decoding :
    (∀ (headers : List (List Char)) (body : List Char),
      hasChunked headers = true → frameBody headers body = decodeChunked body) ∧
    decodeChunked wikiChunks = Except.ok (("Wikipedia").data) ∧
    http_process_response wikiResponse = Except.ok (200, ("Wikipedia").data) := by
  refine ⟨?_, by rfl, by rfl⟩
  intro headers body h
  unfold frameBody
  rw [h]
  simp

/-- Witness for C3: the precedence conjunct applied to a concrete
header list containing both framing headers. -/
theorem C3_witness :
    frameBody [("Transfer-Encoding: chunked").data, ("Content-Length: 3").data]
      wikiChunks = decodeChunked wikiChunks :=
  C3_chunked_decoding.1
    [("Transfer-Encoding: chunked").data, ("Content-Length: 3").data]
    wikiChunks (by decide)

/-- Claim C4: the Protocol Client's response processing succeeds only
when a status line is present and the parsed code lies in [200, 599];
a missing status line or a code outside that interval yields a
`ProtocolError` instead of a response. -/
theorem C4_status_code_validation :
    (∀ (resp : List Char) (code : Nat) (body : List Char),
      http_process_response resp = Except.ok (code, body) →
      200 ≤ code ∧ code ≤ 599) ∧
    (∀ (resp head bdy sl : List Char) (hls : List (List Char)),
      splitAtBlankLine resp = some (head, bdy) →
      splitCRLF head = sl :: hls →
      parseStatusCode sl = none →
      http_process_response resp = Except.error HttpError.ProtocolError) ∧
    (∀ (resp head bdy sl : List Char) (hls : List (List Char)) (code : Nat),
      splitAtBlankLine resp = some (head, bdy) →
      splitCRLF head = sl :: hls →
      parseStatusCode sl = some code →
      (code < 200 ∨ 599 < code) →
      http_process_response resp = Except.error HttpError.ProtocolError) := by
  refine ⟨?_, ?_, ?_⟩
  · intro resp code body h
    unfold http_process_response at h
    cases h1 : splitAtBlankLine resp with
    | none => rw [h1] at h; simp at h
    | some p =>
      obtain ⟨head, bdy⟩ := p
      simp only [h1] at h
      cases h2 : splitCRLF head with
      | nil => simp only [h2] at h; simp at h
      | cons sl hls =>
        simp only [h2] at h
        cases h3 : parseStatusCode sl with
        | none => simp only [h3] at h; simp at h
        | some code' =>
          simp only [h3] at h
          by_cases h4 : code' < 200 ∨ 599 < code'
          · rw [if_pos h4] at h; simp at h
          · rw [if_neg h4] at h
            push_neg at h4
            cases h5 : frameBody hls bdy with
            | error e => rw [h5] at h; simp [Except.map] at h
            | ok b =>
              rw [h5] at h
              simp [Except.map] at h
              obtain ⟨hc, _⟩ := h
              omega
  · intro resp head bdy sl hls h1 h2 h3
    unfold http_process_response
    simp only [h1, h2, h3]
  · intro resp head bdy sl hls code h1 h2 h3 h4
    unfold http_process_response
    simp only [h1, h2, h3]
    rw [if_pos h4]

/-- Witness for C4: the accepted-range conjunct applied to the
concrete 200 response. -/
theorem C4_witness : 200 ≤ 200 ∧ 200 ≤ 599 :=
  C4_status_code_validation.1 wikiResponse 200 (("Wikipedia").data) (by rfl)

/- ===================================================================
   Orchestration layer theorems: make_request.
   =================================================================== -/

theorem make_request_net_write (env : MakeRequestEnv) (b : String)
    (h : (make_request_net env).cacheWrite = some b) :
    env.httpOk = true ∧ env.httpBody = some b ∧
    ∃ j, env.jparse b = some j ∧ successNotFalse j = true ∧
      (make_request_net env).result = some j := by
  unfold make_request_net at h ⊢
  by_cases hok : env.httpOk = false
  · rw [if_pos hok] at h; simp at h
  · rw [if_neg hok] at h
    rw [if_neg hok]
    cases hb : env.httpBody with
    | none => simp only [hb] at h; simp at h
    | some body =>
      simp only [hb] at h ⊢
      cases hj : env.jparse body with
      | none => simp only [hj] at h; simp at h
      | some j =>
        simp only [hj] at h ⊢
        by_cases hs : successNotFalse j = true
        · rw [if_pos hs] at h
          simp at h
          subst h
          refine ⟨by simpa using hok, rfl, j, hj, hs, ?_⟩
          rw [if_pos hs]
        · rw [if_neg hs] at h; simp at h

theorem make_request_net_none_write (env : MakeRequestEnv)
    (h : (make_request_net env).result = none) :
    (make_request_net env).cacheWrite = none := by
  unfold make_request_net at h ⊢
  by_cases hok : env.httpOk = false
  · rw [if_pos hok]
  · rw [if_neg hok] at h ⊢
    cases hb : env.httpBody with
    | none => simp
    | some body =>
      simp only [hb] at h ⊢
      cases hj : env.jparse body with
      | none => simp
      | some j =>
        simp only [hj] at h ⊢
        by_cases hs : successNotFalse j = true
        · rw [if_pos hs] at h; simp at h
        · rw [if_neg hs]

/-- Claim C6: `make_request` consults the cache before any network
activity — a cache hit whose text parses as JSON is returned with no
HTTP request made and no cache write; the body is stored into the
cache only when the HTTP request succeeded, the body parsed as JSON
and the parsed object's `success` field (when present and boolean) is
not false; and on every path returning no result nothing is written to
the cache. -/
theorem C6_make_request_cache_discipline :
    (∀ (env : MakeRequestEnv) (cached : String) (j : JsonVal),
      env.cached = some cached → env.jparse cached = some j →
      make_request env =
        { result := some j, httpCalled := false, cacheWrite := none }) ∧
    (∀ (env : MakeRequestEnv) (b : String),
      (make_request env).cacheWrite = some b →
      env.httpOk = true ∧ env.httpBody = some b ∧
      ∃ j, env.jparse b = some j ∧ successNotFalse j = true ∧
        (make_request env).result = some j) ∧
    (∀ env : MakeRequestEnv,
      (make_request env).result = none → (make_request env).cacheWrite = none) := by
  refine ⟨?_, ?_, ?_⟩
  · intro env cached j h1 h2
    unfold make_request
    simp only [h1, h2]
  · intro env b h
    unfold make_request at h ⊢
    cases hc : env.cached with
    | some cached =>
      simp only [hc] at h ⊢
      cases hj : env.jparse cached with
      | some j => simp only [hj] at h; simp at h
      | none =>
        simp only [hj] at h ⊢
        exact make_request_net_write env b h
    | none =>
      simp only [hc] at h ⊢
      exact make_request_net_write env b h
  · intro env h
    unfold make_request at h ⊢
    cases hc : env.cached with
    | some cached =>
      simp only [hc] at h ⊢
      cases hj : env.jparse cached with
      | some j => simp only [hj] at h; simp at h
      | none =>
        simp only [hj] at h ⊢
        exact make_request_net_none_write env h
    | none =>
      simp only [hc] at h ⊢
      exact make_request_net_none_write env h

/-- Witness for C6: a concrete environment with a parseable cached
body is answered from the cache with no HTTP call and no write. -/
theorem C6_witness :
    make_request
      { jparse := fun _ => some JsonVal.null,
        cached := some "cached-body",
        httpOk := false,
        httpBody := none } =
      { result := some JsonVal.null, httpCalled := false, cacheWrite := none } :=
  C6_make_request_cache_discipline.1
    { jparse := fun _ => some JsonVal.null,
      cached := some "cached-body",
      httpOk := false,
      httpBody := none } "cached-body" JsonVal.null rfl rfl

/- ===================================================================
   State machine worker theorems.
   =================================================================== -/

theorem smwIter_absorb_completed (n : Nat) :
    smwIter n RequestState.completed = RequestState.completed := by
  induction n with
  | zero => rfl
  | succ n ih => rw [smwIter, smwStepState]; exact ih

theorem smwIter_absorb_error (n : Nat) :
    smwIter n RequestState.error = RequestState.error := by
  induction n with
  | zero => rfl
  | succ n ih => rw [smwIter, smwStepState]; exact ih

theorem smwIter_queued_plus_five (m : Nat) :
    smwIter (m + 5) RequestState.queued = RequestState.completed := by
  have h : smwIter (m + 5) RequestState.queued = smwIter m RequestState.completed := rfl
  rw [h, smwIter_absorb_completed]

/-- Claim C7: a live request advances by at most one state per work
call, never moves backward along the fixed order Queued -> Connecting
-> Sending -> Receiving -> Processing -> Completed, stays forever in
Completed or Error once reached, and the HTTP executor is invoked
exactly when the request is in its Processing step — which a run
started from Queued reaches exactly at the fifth call.  Requests
without a live base_url are skipped unchanged. -/
theorem C7_smw_state_machine :
    (∀ s, smwRank (smwStepState s) ≤ smwRank s + 1) ∧
    (∀ s, smwRank s ≤ smwRank (smwStepState s)) ∧
    (∀ n, smwIter n RequestState.completed = RequestState.completed) ∧
    (∀ n, smwIter n RequestState.error = RequestState.error) ∧
    (∀ s, smwStepExec s = true ↔ s = RequestState.processing) ∧
    (∀ n, smwIter n RequestState.queued = RequestState.processing ↔ n = 4) ∧
    (∀ s, smwStepReq { live := true, state := s } =
      ({ live := true, state := smwStepState s }, smwStepExec s)) ∧
    (∀ s, smwStepReq { live := false, state := s } =
      ({ live := false, state := s }, false)) ∧
    (∀ reqs, (weather_client_smw_work_impl reqs).1 =
      reqs.map (fun r => (smwStepReq r).1)) := by
  refine ⟨?_, ?_, smwIter_absorb_completed, smwIter_absorb_error, ?_, ?_, ?_, ?_, ?_⟩
  · intro s; cases s <;> simp [smwRank, smwStepState]
  · intro s; cases s <;> simp [smwRank, smwStepState]
  · intro s; cases s <;> simp [smwStepExec]
  · intro n
    rcases n with _ | _ | _ | _ | _ | n
    · simp [smwIter]
    · simp [smwIter, smwStepState]
    · simp [smwIter, smwStepState]
    · simp [smwIter, smwStepState]
    · simp [smwIter, smwStepState]
    · rw [show n + 1 + 1 + 1 + 1 + 1 = n + 5 by omega, smwIter_queued_plus_five]
      constructor
      · intro h; cases h
      · intro h; omega
  · intro s; simp [smwStepReq]
  · intro s; simp [smwStepReq]
  · intro reqs; rfl

/- ===================================================================
   Async request table theorems.
   =================================================================== -/

theorem asyncApply_length (t : AsyncTable) (op : AsyncOp)
    (h : t.requests.length ≤ MAX_REQUESTS) :
    (asyncApply t op).requests.length ≤ MAX_REQUESTS := by
  cases op with
  | init base => simp [asyncApply, weather_client_init, MAX_REQUESTS]
  | current city country =>
    simp only [asyncApply]
    unfold weather_client_current_async
    by_cases hcap : MAX_REQUESTS ≤ t.requests.length
    · rw [if_pos hcap]; exact h
    · rw [if_neg hcap]; simp; omega
  | forecast city country days =>
    simp only [asyncApply]
    unfold weather_client_forecast_async
    by_cases hcap : MAX_REQUESTS ≤ t.requests.length
    · rw [if_pos hcap]; exact h
    · rw [if_neg hcap]; simp; omega
  | poll => simp [asyncApply, MAX_REQUESTS]
  | cleanup => simp [asyncApply, MAX_REQUESTS]
  | smw => simpa [asyncApply] using h

theorem asyncRun_length (ops : List AsyncOp) (t : AsyncTable)
    (h : t.requests.length ≤ MAX_REQUESTS) :
    (asyncRun t ops).requests.length ≤ MAX_REQUESTS := by
  induction ops generalizing t with
  | nil => exact h
  | cons op ops ih => exact ih (asyncApply t op) (asyncApply_length t op h)

/-- Claim C8: the global request table admits at most 16 in-flight
requests.  When the count has reached the fixed capacity, both async
enqueue functions return -1 and leave the table unchanged; below
capacity each appends exactly one request in the Queued state and
returns 0; and over every operation sequence from program start the
count never exceeds the capacity. -/
theorem C8_async_table_bound :
    (∀ (t : AsyncTable) (city country : String),
      t.requests.length = MAX_REQUESTS →
      weather_client_current_async t city country = (t, -1)) ∧
    (∀ (t : AsyncTable) (city country : String) (days : Int),
      t.requests.length = MAX_REQUESTS →
      weather_client_forecast_async t city country days = (t, -1)) ∧
    (∀ (t : AsyncTable) (city country : String),
      t.requests.length < MAX_REQUESTS →
      (weather_client_current_async t city country).1.requests.length =
        t.requests.length + 1 ∧
      (weather_client_current_async t city country).2 = 0 ∧
      ∃ r, (weather_client_current_async t city country).1.requests =
        t.requests ++ [r] ∧ r.state = RequestState.queued) ∧
    (∀ (t : AsyncTable) (city country : String) (days : Int),
      t.requests.length < MAX_REQUESTS →
      (weather_client_forecast_async t city country days).1.requests.length =
        t.requests.length + 1 ∧
      (weather_client_forecast_async t city country days).2 = 0 ∧
      ∃ r, (weather_client_forecast_async t city country days).1.requests =
        t.requests ++ [r] ∧ r.state = RequestState.queued) ∧
    (∀ ops : List AsyncOp,
      (asyncRun asyncInitial ops).requests.length ≤ MAX_REQUESTS) := by
  refine ⟨?_, ?_, ?_, ?_, ?_⟩
  · intro t city country h
    unfold weather_client_current_async
    rw [if_pos (le_of_eq h.symm)]
  · intro t city country days h
    unfold weather_client_forecast_async
    rw [if_pos (le_of_eq h.symm)]
  · intro t city country h
    unfold weather_client_current_async
    rw [if_neg (not_le.mpr h)]
    refine ⟨by simp, rfl, _, rfl, rfl⟩
  · intro t city country days h
    unfold weather_client_forecast_async
    rw [if_neg (not_le.mpr h)]
    refine ⟨by simp, rfl, _, rfl, rfl⟩
  · intro ops
    exact asyncRun_length ops asyncInitial (by simp [asyncInitial, MAX_REQUESTS])

/-- Witness for C8: enqueueing into the full concrete table is refused
with -1 and changes nothing. -/
theorem C8_witness :
    weather_client_current_async fullTableDemo "Kyiv" "UA" = (fullTableDemo, -1) :=
  C8_async_table_bound.1 fullTableDemo "Kyiv" "UA" (by decide)

/- ===================================================================
   URL parsing and request construction theorems.
   =================================================================== -/

theorem dropLit_append (lit rest : List Char) : dropLit lit (lit ++ rest) = some rest := by
  induction lit with
  | nil => rfl
  | cons c cs ih => simp [dropLit, ih]

theorem scanSet_all (p : Char → Bool) (l : List Char) :
    ∀ max : Nat, (∀ c ∈ l, p c = true) → l.length ≤ max → scanSet p max l = (l, []) := by
  induction l with
  | nil => intro max h hl; cases max <;> rfl
  | cons c cs ih =>
    intro max h hl
    cases max with
    | zero => simp at hl
    | succ m =>
      have hc : p c = true := h c (List.mem_cons_self c cs)
      have hcs : scanSet p m cs = (cs, []) :=
        ih m (fun x hx => h x (List.mem_cons_of_mem c hx)) (by simpa using hl)
      simp [scanSet, hc, hcs]

theorem scanSet_stop (p : Char → Bool) (l1 : List Char) (c : Char) (l2 : List Char) :
    ∀ max : Nat, (∀ x ∈ l1, p x = true) → l1.length ≤ max → p c = false →
    scanSet p max (l1 ++ c :: l2) = (l1, c :: l2) := by
  induction l1 with
  | nil =>
    intro max h hl hc
    cases max with
    | zero => rfl
    | succ m => simp [scanSet, hc]
  | cons x xs ih =>
    intro max h hl hc
    cases max with
    | zero => simp at hl
    | succ m =>
      have hx : p x = true := h x (List.mem_cons_self x xs)
      have hxs : scanSet p m (xs ++ c :: l2) = (xs, c :: l2) :=
        ih m (fun y hy => h y (List.mem_cons_of_mem x hy)) (by simpa using hl) hc
      simp [scanSet, hx, hxs]

theorem parse_url_no_port (host path : List Char)
    (hh1 : host ≠ []) (hh2 : host.length ≤ 255)
    (hh3 : ∀ c ∈ host, c ≠ ':' ∧ c ≠ '/')
    (hp1 : path ≠ []) (hp2 : path.length ≤ 511)
    (hp3 : ∀ c ∈ path, c ≠ '\n') :
    parse_url (("http://".data) ++ host ++ '/' :: path) =
      some { host := host, port := 80, path := some path } := by
  have hdrop : dropLit ("http://".data) (("http://".data) ++ host ++ '/' :: path) =
      some (host ++ '/' :: path) := dropLit_append _ _
  have hs1 : scanSet (fun c => !(c == ':' || c == '/')) 255 (host ++ '/' :: path) =
      (host, '/' :: path) := by
    apply scanSet_stop
    · intro x hx
      have := hh3 x hx
      simp [this.1, this.2]
    · exact hh2
    · decide
  have hs2 : scanSet (fun c => !(c == '/')) 255 (host ++ '/' :: path) =
      (host, '/' :: path) := by
    apply scanSet_stop
    · intro x hx
      have := hh3 x hx
      simp [this.2]
    · exact hh2
    · decide
  have hs3 : scanSet (fun c => !(c == '\n')) 511 path = (path, []) := by
    apply scanSet_all
    · intro x hx
      simp [hp3 x hx]
    · exact hp2
  have hhe : host.isEmpty = false := by
    cases host with
    | nil => exact absurd rfl hh1
    | cons a l => rfl
  have hpe : path.isEmpty = false := by
    cases path with
    | nil => exact absurd rfl hp1
    | cons a l => rfl
  unfold parse_url parse_url_pattern1 parse_url_pattern2
  rw [hdrop]
  simp only [hs1, hs2, hhe, Bool.false_eq_true, if_false]
  simp [hs3, hpe]

/-- Claim C9: for every URL the HTTP GET path accepts (and whose path
component converted, the only case in which the C code sends defined
bytes), the request sent over the socket is exactly the request line
`GET /<path> HTTP/1.1` followed by a `Host` header naming the parsed
host and a `Connection: close` header; and a URL of the form
`http://host/path`, which carries no explicit port, is connected to
port 80. -/
theorem C9_request_line_and_default_port :
    (∀ (url host req : List Char) (port : Int),
      http_get_sync_request url = some (host, port, req) →
      ∃ pa, parse_url url = some { host := host, port := port, path := some pa } ∧
        req = (build_http_request host pa).take 1023) ∧
    (∀ host path : List Char,
      host ≠ [] → host.length ≤ 255 → (∀ c ∈ host, c ≠ ':' ∧ c ≠ '/') →
      path ≠ [] → path.length ≤ 511 → (∀ c ∈ path, c ≠ '\n') →
      host.length + path.length ≤ 978 →
      http_get_sync_request (("http://".data) ++ host ++ '/' :: path) =
        some (host, 80, build_http_request host path)) := by
  constructor
  · intro url host req port h
    unfold http_get_sync_request at h
    cases hu : parse_url url with
    | none => rw [hu] at h; simp at h
    | some u =>
      rw [hu] at h
      cases hp : u.path with
      | none => simp only [hp] at h; simp at h
      | some pa =>
        obtain ⟨uh, upo, upa⟩ := u
        simp only at hp h
        subst hp
        simp at h
        obtain ⟨h1, h2, h3⟩ := h
        refine ⟨pa, ?_, ?_⟩
        · rw [h1, h2]
        · rw [← h3, h1]
  · intro host path hh1 hh2 hh3 hp1 hp2 hp3 hfit
    unfold http_get_sync_request
    rw [parse_url_no_port host path hh1 hh2 hh3 hp1 hp2 hp3]
    have hlen : (build_http_request host path).length ≤ 1023 := by
      simp [build_http_request]
      omega
    simp [List.take_of_length_le hlen]

/-- Witness for C9: the concrete request for
`http://example.com/v1/weather` connects to port 80 and sends the
specified request text. -/
theorem C9_witness :
    http_get_sync_request
      (("http://".data) ++ ("example.com").data ++ '/' :: ("v1/weather").data) =
      some (("example.com").data, 80,
        build_http_request (("example.com").data) (("v1/weather").data)) :=
  C9_request_line_and_default_port.2 (("example.com").data) (("v1/weather").data)
    (by decide) (by decide) (by decide) (by decide) (by decide) (by decide) (by decide)

/- ===================================================================
   WeatherClient setter theorems.
   =================================================================== -/

/-- Claim C10: for every client and every integer timeout (including
non-positive values), `weather_client_set_timeout` stores the argument
in the client's `timeout_ms` field unconditionally and changes nothing
else: the owned HTTP client, the cache, the server host and the server
port are untouched; in particular after any such call the owned HTTP
client still carries the 5000 ms timeout it was given at creation, so
the setter does not affect the timeout used by requests. -/
theorem C10_set_timeout_frame :
    (∀ (c : WeatherClient) (t : Int),
      (weather_client_set_timeout c t).timeout_ms = t ∧
      (weather_client_set_timeout c t).http = c.http ∧
      (weather_client_set_timeout c t).cache = c.cache ∧
      (weather_client_set_timeout c t).server_host = c.server_host ∧
      (weather_client_set_timeout c t).server_port = c.server_port) ∧
    (∀ (host : Option String) (port t : Int),
      (weather_client_set_timeout (weather_client_create host port) t).http.timeout_ms
        = 5000) := by
  constructor
  · intro c t
    exact ⟨rfl, rfl, rfl, rfl, rfl⟩
  · intro host port t
    simp [weather_client_set_timeout, weather_client_create, http_client_create]
